import Mathlib

/-!
Verification of the job-management subsystem (law/job/base.py) against its
natural-language specification.

The development shallowly embeds the Python source:

* `BaseJobManager` batch operations (`submit_batch`, `cancel_batch`,
  `cleanup_batch`, `query_batch`): threaded dispatch is modelled as pure
  sequential evaluation (the source collects one `AsyncResult` per dispatched
  unit and reads them back in dispatch order, so the observable output is
  order-deterministic).  A worker call that raises is modelled as
  `Except.error`, following `get_async_result_silent`, which returns the
  exception object instead of re-raising it.
* `status_line` including its mutation of `self.last_counts`.
* `BaseJobFileFactory.postfix_file` / `render_file` /
  `linearize_render_variables` string machinery.  Text is modelled as
  `List Char`.
* `JobArguments` argument encoding (base64 implemented concretely).
* `JobInputFile.__init__` flag normalisation (diagnostics via
  `logger.warning` are collected in a list of tags).

Functions of this repository that the source imports from modules not present
here (`law.util`) are modelled from the spec where noted, each with a doc
comment starting `Modelled from the spec:`.

Python dynamic typing is resolved by giving each atomic operation the two
typed shapes the methods actually use: a per-item function (unchunked
dispatch) and a per-chunk function (chunked dispatch).
-/

/-- Decidable equality for `Except`, needed to state concrete (counter)examples
about batch outputs. -/
instance instDecEqExcept {ε α : Type} [DecidableEq ε] [DecidableEq α] :
    DecidableEq (Except ε α) := fun x y =>
  match x, y with
  | .error a, .error b =>
    if h : a = b then isTrue (by rw [h]) else isFalse (by intro hh; cases hh; exact h rfl)
  | .error _, .ok _ => isFalse (by intro h; cases h)
  | .ok _, .error _ => isFalse (by intro h; cases h)
  | .ok a, .ok b =>
    if h : a = b then isTrue (by rw [h]) else isFalse (by intro hh; cases hh; exact h rfl)

/-! ## BaseJobManager: chunk-size resolution and chunking -/

/-- Python truthiness-based defaulting `chunk_size or default` used at
base.py:217/282/336/390: an absent argument (`None`) or an explicit `0` falls
back to the default, any other integer is kept. -/
def pyOrInt (arg : Option Int) (d : Int) : Int :=
  match arg with
  | Option.none => d
  | some x => if x = 0 then d else x

/-- Chunk-size determination shared by all four batch methods
(base.py:216-219, 281-284, 335-338, 389-392):
`if self.chunk_size_X: chunk_size = max(chunk_size or self.chunk_size_X, 0)
 else: chunk_size = 0`.
`dCs` is the instance's configured default (`chunk_size_submit` etc., a
non-negative integer in the source), `arg` the caller's explicit argument. -/
def effective_chunk_size (dCs : Nat) (arg : Option Int) : Nat :=
  if dCs = 0 then 0 else (max (pyOrInt arg (dCs : Int)) 0).toNat

/-- Modelled from the spec: `law.util.iter_chunks` (imported by base.py but not
under src/) partitions a list into contiguous chunks of up to `cs` items, in
original order ("chunk i holds a contiguous slice").  Fuel-based so that the
definition is structural; the fuel `l.length` suffices whenever `0 < cs`,
which is the only way the batch methods invoke it (chunking requires
`chunk_size > 0`). -/
def chunksFuel {α : Type} : Nat → Nat → List α → List (List α)
  | 0, _, _ => []
  | fuel + 1, cs, l =>
    match l with
    | [] => []
    | _ :: _ => l.take cs :: chunksFuel fuel cs (l.drop cs)

/-- Chunk partition of a list (see `chunksFuel`). -/
def chunks {α : Type} (cs : Nat) (l : List α) : List (List α) :=
  chunksFuel l.length cs l

/-! ## BaseJobManager: the four batch operations

Each atomic operation appears in two typed shapes: `op1` (single item, used
when chunking is off) and `opC` (whole chunk, used when chunking is on; per
the contract it returns one result per item of the chunk).  `Except.error e`
models a raised exception `e` as captured by `get_async_result_silent`. -/

/-- Per-chunk output assembly of `submit_batch` (base.py:252-258): a chunk
whose call raised has that exception broadcast to each of its positions
(`job_ids = len(chunk) * [job_ids]`); a successful chunked call contributes
its returned job-id list as is (the source performs no length check). -/
def submit_chunk_res {α E β : Type} (opC : List α → Except E (List β)) (c : List α) :
    List (Except E β) :=
  match opC c with
  | .error e => c.map (fun _ => .error e)
  | .ok bs => bs.map .ok

/-- `BaseJobManager.submit_batch` (base.py:198-262).  Output: one entry per
input job file when chunking is off (`outputs = flatten(...)` over scalar
per-item results), or the concatenation of per-chunk outputs when on. -/
def submit_batch {α E β : Type} (dCs : Nat) (csArg : Option Int)
    (opC : List α → Except E (List β)) (op1 : α → Except E β)
    (job_files : List α) : List (Except E β) :=
  if 0 < effective_chunk_size dCs csArg then
    (chunks (effective_chunk_size dCs csArg) job_files).flatMap (submit_chunk_res opC)
  else
    job_files.map op1

/-- Per-chunk error extraction of `cancel_batch` (base.py:314):
`errors = list(filter(bool, flatten(get_async_result_silent(res) ...)))`.
A raised exception is a non-iterable truthy scalar, so a raising chunk
contributes exactly one entry; a successful chunked call returning per-item
results contributes its truthy entries (modelled as `Option E`, with `none`
for a falsy/`None` per-item result). -/
def cancel_chunk_res {α E : Type} (opC : List α → Except E (List (Option E))) (c : List α) :
    List E :=
  match opC c with
  | .error e => [e]
  | .ok rs => rs.filterMap id

/-- `BaseJobManager.cancel_batch` (base.py:264-316).  Returns only the error
entries, in dispatch (= input) order. -/
def cancel_batch {α E : Type} (dCs : Nat) (csArg : Option Int)
    (opC : List α → Except E (List (Option E))) (op1 : α → Except E (Option E))
    (job_ids : List α) : List E :=
  if 0 < effective_chunk_size dCs csArg then
    (chunks (effective_chunk_size dCs csArg) job_ids).flatMap (cancel_chunk_res opC)
  else
    job_ids.flatMap (fun j =>
      match op1 j with
      | .error e => [e]
      | .ok (some err) => [err]
      | .ok Option.none => [])

/-- Per-chunk error extraction of `cleanup_batch` (base.py:368); the method
body is line-for-line identical to `cancel_batch`'s. -/
def cleanup_chunk_res {α E : Type} (opC : List α → Except E (List (Option E))) (c : List α) :
    List E :=
  match opC c with
  | .error e => [e]
  | .ok rs => rs.filterMap id

/-- `BaseJobManager.cleanup_batch` (base.py:318-370), identical in structure to
`cancel_batch`. -/
def cleanup_batch {α E : Type} (dCs : Nat) (csArg : Option Int)
    (opC : List α → Except E (List (Option E))) (op1 : α → Except E (Option E))
    (job_ids : List α) : List E :=
  if 0 < effective_chunk_size dCs csArg then
    (chunks (effective_chunk_size dCs csArg) job_ids).flatMap (cleanup_chunk_res opC)
  else
    job_ids.flatMap (fun j =>
      match op1 j with
      | .error e => [e]
      | .ok (some err) => [err]
      | .ok Option.none => [])

/-- Per-chunk query-data assembly of `query_batch` (base.py:424-429): a raising
chunk maps every job id of the chunk to the exception
(`data = {job_id: data for job_id in chunk}`); a successful chunked call
contributes the association returned by the atomic `query`.  The Python dict
`query_data.update(data)` is modelled as list concatenation, which has the
same lookup behaviour whenever the input job ids are distinct. -/
def query_chunk_res {α E β : Type} (opC : List α → Except E (List (α × β))) (c : List α) :
    List (α × Except E β) :=
  match opC c with
  | .error e => c.map (fun j => (j, .error e))
  | .ok l => l.map (fun jb => (jb.1, .ok jb.2))

/-- `BaseJobManager.query_batch` (base.py:372-434).  Returns the job-id →
result association (`query_data`). -/
def query_batch {α E β : Type} (dCs : Nat) (csArg : Option Int)
    (opC : List α → Except E (List (α × β))) (op1 : α → Except E β)
    (job_ids : List α) : List (α × Except E β) :=
  if 0 < effective_chunk_size dCs csArg then
    (chunks (effective_chunk_size dCs csArg) job_ids).flatMap (query_chunk_res opC)
  else
    job_ids.map (fun j => (j, op1 j))

/-! ## BaseJobManager.status_line -/

/-- The `last_counts` argument of `status_line` (base.py:436): Python `None`
(or an explicitly falsy value such as `False` or an empty tuple passed as a
flag), any truthy non-list value such as `True` (selecting the implicit
stored baseline), or an explicit list of counts. -/
inductive LastArg : Type
  | noneArg : LastArg
  | implicitArg : LastArg
  | explicitArg : List Int → LastArg
deriving DecidableEq

/-- Exceptions `status_line` can raise. -/
inductive PyErr : Type
  | lengthLast : PyErr
  | lengthCounts : PyErr
  | unboundLocalDiffs : PyErr
deriving DecidableEq

/-- The `align` argument: a bool or an int (base.py:477-478). -/
inductive PyAlign : Type
  | ofBool : Bool → PyAlign
  | ofInt : Int → PyAlign
deriving DecidableEq

/-- `if isinstance(align, bool) or not isinstance(align, integer): align = 4 if
align else 0` (base.py:477-478). -/
def normAlign : PyAlign → Int
  | .ofBool b => if b then 4 else 0
  | .ofInt w => w

/-- Resolution of the effective previous-counts list (base.py:459-462).  The
result `[]` stands for a Python-falsy value (`None` or an empty list), which
behaves identically at every later use (`if last_counts ...`). -/
def resolveLast (stored : List Int) (n : Nat) : LastArg → List Int
  | .noneArg => []
  | .implicitArg => if stored = [] then List.replicate n 0 else stored
  | .explicitArg l => l

/-- Decimal digits of an `Int`, via `toString` (models Python `"%d" % k`). -/
def intStr (k : Int) : List Char := (toString k).toList

/-- Sign-forcing decimal digits (models Python `"%+d" % k`). -/
def intStrSigned (k : Int) : List Char :=
  if k < 0 then intStr k else '+' :: intStr k

/-- `"%{w}d"`-style padding: non-positive width leaves the digits unpadded on
the left resp. pads on the right for a negative width (Python `"%-3d"`). -/
def padWidth (w : Int) (s : List Char) : List Char :=
  if 0 < w then List.replicate (w.toNat - s.length) ' ' ++ s
  else if w < 0 then s ++ List.replicate ((-w).toNat - s.length) ' '
  else s

/-- `count_fmt % count` (base.py:479). -/
def fmtCount (w : Int) (k : Int) : List Char := padWidth w (intStr k)

/-- `diff_fmt % diff` (base.py:480). -/
def fmtDiff (w : Int) (k : Int) : List Char := padWidth w (intStrSigned k)

/-- The `diffs` local of `status_line`: `Option.none` models the variable
being left unassigned because `if last_counts:` (base.py:473) was not taken. -/
def statusDiffs (counts lc : List Int) : Option (List Int) :=
  if lc ≠ [] then some (counts.zipWith (fun n m => n - m) lc) else Option.none

/-- The successfully built status line (base.py:482-502): optional timestamp
part, the `all:` sum, then one `, name: count` segment per status, each
followed by a signed-diff segment when `diffs` is assigned and non-empty. -/
def status_line_text (names : List (List Char)) (counts : List Int)
    (diffs : Option (List Int)) (sumArg : Option Int) (timestamp : Bool) (now : List Char)
    (w : Int) : List Char :=
  (if timestamp then now ++ (": ".toList) else []) ++ ("all: ".toList) ++
    fmtCount w (sumArg.getD counts.sum) ++
    (names.zip counts).enum.flatMap (fun p =>
      (", ".toList) ++ p.2.1 ++ (": ".toList) ++ fmtCount w p.2.2 ++
        (match diffs with
         | some d =>
           if d ≠ [] then (" (".toList) ++ fmtDiff w (d.getD p.1 0) ++ (")".toList) else []
         | Option.none => []))

/-- `BaseJobManager.status_line` (base.py:436-507), result value only; state
threading is in `status_line`.  Faithful points: the two length checks
(base.py:463-470) run first; `diffs` is assigned only under `if last_counts:`
(base.py:473-474) yet read unconditionally inside the status loop
(base.py:496), so when the loop runs at least once (`names.zip counts ≠ []`)
with `diffs` unassigned the call raises `UnboundLocalError` — modelled as
`PyErr.unboundLocalDiffs`.  `color` handling is not modelled: every claim
exercises `color=False`, whose code path never calls `law.util.colored` (which
is not under src/).  `now` is the externally-obtained formatted wall-clock
time used when `timestamp` is true. -/
def status_line_core (names : List (List Char)) (stored : List Int) (counts : List Int)
    (lastArg : LastArg) (sumArg : Option Int) (timestamp : Bool) (now : List Char)
    (align : PyAlign) : Except PyErr (List Char) :=
  if resolveLast stored names.length lastArg ≠ [] ∧
      (resolveLast stored names.length lastArg).length ≠ names.length then
    .error .lengthLast
  else if counts.length ≠ names.length then .error .lengthCounts
  else if names.zip counts ≠ [] ∧
      statusDiffs counts (resolveLast stored names.length lastArg) = Option.none then
    .error .unboundLocalDiffs
  else
    .ok (status_line_text names counts
      (statusDiffs counts (resolveLast stored names.length lastArg)) sumArg timestamp now
      (normAlign align))

/-- `status_line` with its state effect: `self.last_counts = list(counts)`
(base.py:505) is the method's only mutation and lies after every raise site,
so the stored baseline becomes `counts` exactly when the call returns a line,
and is left at `stored` when it raises. -/
def status_line (names : List (List Char)) (stored : List Int) (counts : List Int)
    (lastArg : LastArg) (sumArg : Option Int) (timestamp : Bool) (now : List Char)
    (align : PyAlign) : Except PyErr (List Char) × List Int :=
  match status_line_core names stored counts lastArg sumArg timestamp now align with
  | .error e => (.error e, stored)
  | .ok line => (.ok line, counts)

/-- `Except.isError`-style discriminator used in statements. -/
def exceptIsError {ε α : Type} : Except ε α → Bool
  | .error _ => true
  | .ok _ => false

/-- The five default status names (base.py:129-135). -/
def default_status_names : List (List Char) :=
  [("pending".toList), ("running".toList), ("finished".toList), ("retry".toList),
   ("failed".toList)]

/-! ## BaseJobFileFactory: template-rendering string machinery

Text is modelled as `List Char`.  Brace characters are written via
`Char.ofNat` (123 / 125). -/

/-- The opening brace character. -/
def lbChar : Char := Char.ofNat 123

/-- The closing brace character. -/
def rbChar : Char := Char.ofNat 125

/-- Python regex `\w` (ASCII reading): letters, digits, underscore. -/
def isWordChar (c : Char) : Bool := c.isAlpha || c.isDigit || c = '_'

/-- The double-brace template token for a key (`render_string`'s and
`render_key_cre`'s pattern text). -/
def renderPat (key : List Char) : List Char :=
  lbChar :: lbChar :: (key ++ [rbChar, rbChar])

/-- One attempted match of `render_key_cre = \{\{(\w+)\}\}` (base.py:557) at
the head of the text: two opening braces, a non-empty maximal word-char run
(greediness with the mandatory closing braces makes the maximal run the only
candidate, since a word char can never equal a closing brace), two closing
braces.  Returns the captured key and the text after the match. -/
def tryRenderKey (l : List Char) : Option (List Char × List Char) :=
  match l with
  | c1 :: c2 :: rest =>
    if c1 = lbChar ∧ c2 = lbChar then
      let k := rest.takeWhile isWordChar
      if k = [] then Option.none
      else
        match rest.drop k.length with
        | c3 :: c4 :: after => if c3 = rbChar ∧ c4 = rbChar then some (k, after) else Option.none
        | _ => Option.none
    else Option.none
  | _ => Option.none

/-- `re.search(render_key_cre, value)` (base.py:722): the captured key of the
leftmost match, scanning positions left to right. -/
def findRenderKey : List Char → Option (List Char)
  | [] => Option.none
  | c :: cs =>
    match tryRenderKey (c :: cs) with
    | some (k, _) => some k
    | Option.none => findRenderKey cs

/-- Fuel-driven `str.replace(pat, rep)` on character lists: replace every
non-overlapping occurrence of `pat`, scanning left to right.  Fuel
`s.length` suffices for a non-empty pattern (every call sites' pattern is a
double-brace token, which is non-empty). -/
def replaceAllF (pat rep : List Char) : Nat → List Char → List Char
  | 0, s => s
  | _ + 1, [] => []
  | fuel + 1, c :: cs =>
    if pat ≠ [] ∧ pat = (c :: cs).take pat.length then
      rep ++ replaceAllF pat rep fuel ((c :: cs).drop pat.length)
    else
      c :: replaceAllF pat rep fuel cs

/-- `str.replace` (see `replaceAllF`). -/
def replaceAll (pat rep s : List Char) : List Char := replaceAllF pat rep s.length s

/-- `BaseJobFileFactory.render_string` (base.py:684-689): replace
`{{key}}` by `value` in `s`. -/
def render_string (s key value : List Char) : List Char :=
  replaceAll (renderPat key) value s

/-- Fuel-driven `render_key_cre.sub("", content)` (base.py:776): strip every
`{{word}}` token. -/
def stripRenderKeysF : Nat → List Char → List Char
  | 0, s => s
  | _ + 1, [] => []
  | fuel + 1, c :: cs =>
    match tryRenderKey (c :: cs) with
    | some (_, rest) => stripRenderKeysF fuel rest
    | Option.none => c :: stripRenderKeysF fuel cs

/-- `render_key_cre.sub("", content)` (see `stripRenderKeysF`). -/
def stripRenderKeys (s : List Char) : List Char := stripRenderKeysF s.length s

/-- Dictionary `get(sub_key, "")` over an association list (render-variable
mappings; Python dicts iterate in insertion order and hold unique keys). -/
def lookupDefault (m : List (List Char × List Char)) (k : List Char) : List Char :=
  match m.lookup k with
  | some v => v
  | Option.none => []

/-- The `while True` resolution loop inside
`BaseJobFileFactory.linearize_render_variables` (base.py:721-726) applied to
one value, with an explicit fuel bound: `some v` means the loop reached its
`break` (no further `{{word}}` token) within `fuel` iterations and produced
`v`; `none` means it was still running.  The source has no bound at all, so
the source terminates on `value` iff some fuel returns `some`. -/
def linearizeValueFuel (vars : List (List Char × List Char)) :
    Nat → List Char → Option (List Char)
  | 0, _ => Option.none
  | fuel + 1, value =>
    match findRenderKey value with
    | Option.none => some value
    | some k => linearizeValueFuel vars fuel (render_string value k (lookupDefault vars k))

/-! ## BaseJobFileFactory: path postfixing and the postfix marker -/

/-- CPython `posixpath.split`: split off everything after the last slash; the
head keeps no trailing slashes unless it consists only of slashes. -/
def pathSplit (p : List Char) : List Char × List Char :=
  let tl := (p.reverse.takeWhile (fun c => c ≠ '/')).reverse
  let head := p.take (p.length - tl.length)
  let head2 :=
    if head ≠ [] ∧ head.any (fun c => c ≠ '/') then
      (head.reverse.dropWhile (fun c => c = '/')).reverse
    else head
  (head2, tl)

/-- CPython `posixpath.join` for two components (the second never starts with
a slash at the call sites modelled here, but the absolute-override branch is
kept). -/
def pathJoin (a b : List Char) : List Char :=
  if b.head? = some '/' then b
  else if a = [] ∨ a.getLast? = some '/' then a ++ b
  else a ++ '/' :: b

/-- Python `basename.split(".", 1)` (base.py:664): the part before the first
dot, and — when a dot exists — the remainder after it. -/
def splitOnce (l : List Char) : List Char × Option (List Char) :=
  let p0 := l.takeWhile (fun c => c ≠ '.')
  match l.drop p0.length with
  | [] => (p0, Option.none)
  | _ :: rest => (p0, some rest)

/-- `BaseJobFileFactory.postfix_file` (base.py:627-668) for a plain-string (or
absent) postfix argument; the pattern-dictionary variant of `postfix` is not
exercised by any claim and is not modelled.  `hashFull` abstracts
`create_hash(os.path.realpath(os.path.expandvars(os.path.expanduser(path))))`
(base.py:659-660); `law.util.create_hash` and the OS path resolution are
external to src/, and the spec only requires the hash to be a deterministic
function of the path, which holds for any `hashFull`.  The `pfx` parameter is
the source's postfix string argument. -/
def postfix_file (hashFull : List Char → List Char) (path : List Char)
    (pfxOpt : Option (List Char)) (add_hash : Bool) : List Char :=
  let dn := (pathSplit path).1
  let bn := (pathSplit path).2
  let pf0 := pfxOpt.getD []
  let pf := if add_hash then '_' :: (hashFull path ++ pf0) else pf0
  if pf ≠ [] then
    let p0 := (splitOnce bn).1
    let rest := (splitOnce bn).2
    pathJoin dn (p0 ++ pf ++ (match rest with | some r => '.' :: r | Option.none => []))
  else path

/-- `BaseJobFileFactory.postfix_input_file` (base.py:670-675):
`postfix_file` with `add_hash=True`. -/
def postfix_input_file (hashFull : List Char → List Char) (path : List Char)
    (pfxOpt : Option (List Char)) : List Char :=
  postfix_file hashFull path pfxOpt true

/-- The literal marker text of the regex
`\_\_law\_job\_postfix\_\_:([^\s]+)` (base.py:772). -/
def markerLit : List Char := "__law_job_postfix__:".toList

/-- One attempted match of the postfix-marker regex at the head of the text:
the literal marker followed by a non-empty maximal run of non-whitespace
characters (the captured path).  Returns the captured path and the text after
the match. -/
def tryMarker (l : List Char) : Option (List Char × List Char) :=
  if markerLit = l.take markerLit.length then
    let after := l.drop markerLit.length
    let p := after.takeWhile (fun c => !c.isWhitespace)
    if p = [] then Option.none else some (p, after.drop p.length)
  else Option.none

/-- Fuel-driven `re.sub` with the postfix-marker regex (base.py:772),
replacing each match by `repl` of its captured path, scanning left to right.
Fuel `s.length` suffices (each step consumes at least one character). -/
def subMarkersF (repl : List Char → List Char) : Nat → List Char → List Char
  | 0, s => s
  | _ + 1, [] => []
  | fuel + 1, c :: cs =>
    match tryMarker (c :: cs) with
    | some (p, rest) => repl p ++ subMarkersF repl fuel rest
    | Option.none => c :: subMarkersF repl fuel cs

/-- `re.sub` with the postfix-marker regex (see `subMarkersF`). -/
def subMarkers (repl : List Char → List Char) (s : List Char) : List Char :=
  subMarkersF repl s.length s

/-- Python truthiness of the optional postfix string (`if postfix:`,
base.py:771): present and non-empty. -/
def pfxTruthy : Option (List Char) → Bool
  | some (_ :: _) => true
  | _ => false

/-- The per-value preprocessing step of `render_file` (base.py:769-772): when
the postfix argument is truthy, every `__law_job_postfix__:<path>` marker in
the value is replaced by `postfix_input_file(path, postfix)`. -/
def render_value (hashFull : List Char → List Char) (pfxOpt : Option (List Char))
    (value : List Char) : List Char :=
  if pfxTruthy pfxOpt then
    subMarkers (fun p => postfix_input_file hashFull p pfxOpt) value
  else value

/-- The content transformation of `render_file` (base.py:769-776): substitute
each variable (after marker preprocessing) in mapping order, then strip all
remaining `{{word}}` tokens. -/
def render_content (hashFull : List Char → List Char)
    (vars : List (List Char × List Char)) (pfxOpt : Option (List Char))
    (content : List Char) : List Char :=
  stripRenderKeys
    (vars.foldl (fun c kv => render_string c kv.1 (render_value hashFull pfxOpt kv.2)) content)

/-- What `render_file` finds when reading its source file: no file at `src`
(`not os.path.isfile(src)`), a file whose bytes fail text decoding
(`UnicodeDecodeError` in `f.read()`), or decoded text content. -/
inductive FileRead : Type
  | absent : FileRead
  | undecodable : FileRead
  | text : List Char → FileRead
deriving DecidableEq

/-- Exceptions raised by `render_file`. -/
inductive RenderErr : Type
  | ioError : RenderErr
  | unicodeDecodeError : RenderErr
deriving DecidableEq

/-- `BaseJobFileFactory.render_file` (base.py:737-779).  The filesystem read
of `src` is abstracted into `srcRead`; the result `.ok none` models returning
without writing the destination file, `.ok (some c)` models writing `c` to the
destination, `.error e` models raising.  Faithful points: a missing source
raises `IOError` unconditionally (base.py:755-756, before `silent` is ever
consulted); a `UnicodeDecodeError` returns silently when `silent` is true and
re-raises otherwise (base.py:758-764). -/
def render_file (hashFull : List Char → List Char) (srcRead : FileRead)
    (vars : List (List Char × List Char)) (pfxOpt : Option (List Char))
    (silent : Bool) : Except RenderErr (Option (List Char)) :=
  match srcRead with
  | .absent => .error .ioError
  | .undecodable => if silent then .ok Option.none else .error .unicodeDecodeError
  | .text content => .ok (some (render_content hashFull vars pfxOpt content))

/-! ## JobArguments -/

/-- Decimal digit characters of a positive number, most significant first;
fuel-driven (`fuel ≥ n` suffices since `n / 10 < n` for `n > 0`). -/
def natDigitsF : Nat → Nat → List Char
  | 0, _ => []
  | _ + 1, 0 => []
  | fuel + 1, n => natDigitsF fuel (n / 10) ++ [Char.ofNat (48 + n % 10)]

/-- Python `str(v)` for a non-negative integer (branch numbers). -/
def natStr (n : Nat) : String :=
  if n = 0 then "0" else String.mk (natDigitsF n n)

/-- Python `" ".join(parts)`. -/
def joinSpace : List String → String
  | [] => ""
  | [s] => s
  | s :: rest => s ++ " " ++ joinSpace rest

/-- The base64 alphabet character for a 6-bit value. -/
def b64Char (n : Nat) : Char :=
  if n < 26 then Char.ofNat (65 + n)
  else if n < 52 then Char.ofNat (97 + (n - 26))
  else if n < 62 then Char.ofNat (48 + (n - 52))
  else if n = 62 then '+' else '/'

/-- RFC 4648 base64 of a byte list (the reversible binary-safe text encoding
`base64.b64encode` used by `JobArguments.encode_string` / `encode_list`,
base.py:919/927). -/
def b64EncodeBytes : List Nat → List Char
  | [] => []
  | [a] => [b64Char (a / 4), b64Char (a % 4 * 16), '=', '=']
  | [a, b] => [b64Char (a / 4), b64Char (a % 4 * 16 + b / 16), b64Char (b % 16 * 4), '=']
  | a :: b :: c :: rest =>
    b64Char (a / 4) :: b64Char (a % 4 * 16 + b / 16) :: b64Char (b % 16 * 4 + c / 64) ::
      b64Char (c % 64) :: b64EncodeBytes rest

/-- `six.b`: the byte values of a string under latin-1 (code point = byte;
the job-argument strings the source encodes are latin-1 representable). -/
def latin1Bytes (s : String) : List Nat := s.toList.map Char.toNat

/-- `base64.b64encode(six.b(s))` decoded back to text (base.py:919-920). -/
def b64e (s : String) : String := String.mk (b64EncodeBytes (latin1Bytes s))

/-- `JobArguments.encode_bool` (base.py:907-912). -/
def encode_bool (b : Bool) : String := if b then "yes" else "no"

/-- `JobArguments.encode_string` (base.py:914-920): `six.b(s or "-")` maps the
empty (falsy) string to the `"-"` sentinel before base64 encoding. -/
def encode_string (s : String) : String := b64e (if s = "" then "-" else s)

/-- `JobArguments.encode_list` (base.py:922-928) applied to the already
stringified elements (`str(v) for v in l`): join with single spaces, fall back
to the `"-"` sentinel when the joined string is falsy (empty), then base64
encode. -/
def encode_list (l : List String) : String :=
  b64e (if joinSpace l = "" then "-" else joinSpace l)

/-- `JobArguments` (base.py:864-905): `task_cls.__module__` and
`task_cls.__name__` are carried as the two name strings; `dashboard_data`
entries are carried already stringified (`str(v)`). -/
structure JobArguments : Type where
  task_module : String
  task_name : String
  task_params : String
  branches : List Nat
  auto_retry : Bool
  dashboard_data : List String
deriving DecidableEq

/-- `JobArguments.get_args` (base.py:930-942). -/
def JobArguments.get_args (ja : JobArguments) : List String :=
  [ja.task_module, ja.task_name, encode_string ja.task_params,
   encode_list (ja.branches.map natStr), encode_bool ja.auto_retry,
   encode_list ja.dashboard_data]

/-- `JobArguments.join` (base.py:944-949): the six tokens joined by single
spaces (`str` on a string is the identity). -/
def JobArguments.join (ja : JobArguments) : String := joinSpace ja.get_args

/-! ## JobInputFile -/

/-- The resolved flag set stored by `JobInputFile.__init__` (base.py:1053-1059).
The source attribute `postfix` is called `pfx` here (`postfix` is reserved
in Lean). -/
structure JobInputFileFlags : Type where
  copy : Bool
  share : Bool
  forward : Bool
  pfx : Bool
  render_local : Bool
  render_job : Bool
deriving DecidableEq

/-- `maybe_set = lambda current, default: default if current is None else
current` (base.py:1022). -/
def maybeSet (cur : Option Bool) (d : Bool) : Option Bool :=
  match cur with
  | Option.none => some d
  | some b => some b

/-- Python truthiness of an optional boolean local (`if share:` etc.):
`None` is falsy. -/
def optTruthy : Option Bool → Bool
  | some b => b
  | Option.none => false

/-- `JobInputFile.__init__` flag resolution and diagnostics
(base.py:1002-1091) for a plain string path (the copy-constructor branch for a
`JobInputFile` argument is not exercised by any claim).  Returns the stored
flags and, in source order, the tags of the `logger.warning` diagnostics
emitted by the residual checks (base.py:1061-1091); the constructor contains
no raise statement.  Locals are threaded exactly in the source's mutation
order. -/
def jobInputFile_init (copy share forward pfx render render_local render_job : Option Bool) :
    JobInputFileFlags × List String :=
  -- convenience: `render` fills both render flags when neither is given
  let rl0 := if render.isSome && render_local.isNone && render_job.isNone then
    some (render.getD false) else render_local
  let rj0 := if render.isSome && render_local.isNone && render_job.isNone then
    some false else render_job
  -- `if copy is not None and not copy:`
  let share1 := if copy = some false then maybeSet share false else share
  let pfx1 := if copy = some false then maybeSet pfx false else pfx
  let rl1 := if copy = some false then maybeSet rl0 false else rl0
  -- `if share:`
  let copy2 := if optTruthy share1 then maybeSet copy true else copy
  let forward2 := if optTruthy share1 then maybeSet forward false else forward
  let rl2 := if optTruthy share1 then maybeSet rl1 false else rl1
  let pfx2 := if optTruthy share1 then maybeSet pfx1 false else pfx1
  -- `if forward:`
  let copy3 := if optTruthy forward2 then maybeSet copy2 false else copy2
  let share3 := if optTruthy forward2 then maybeSet share1 false else share1
  let rl3 := if optTruthy forward2 then maybeSet rl2 false else rl2
  let pfx3 := if optTruthy forward2 then maybeSet pfx2 false else pfx2
  -- `if postfix:`
  let copy4 := if optTruthy pfx3 then maybeSet copy3 true else copy3
  let share4 := if optTruthy pfx3 then maybeSet share3 false else share3
  let forward4 := if optTruthy pfx3 then maybeSet forward2 false else forward2
  -- `if render_local:`
  let copy5 := if optTruthy rl3 then maybeSet copy4 true else copy4
  let share5 := if optTruthy rl3 then maybeSet share4 false else share4
  let forward5 := if optTruthy rl3 then maybeSet forward4 false else forward4
  let rj5 := if optTruthy rl3 then maybeSet rj0 false else rj0
  -- `if render_job:`
  let forward6 := if optTruthy rj5 then maybeSet forward5 false else forward5
  let rl6 := if optTruthy rj5 then maybeSet rl3 false else rl3
  -- residual defaults (base.py:1053-1059)
  let f : JobInputFileFlags :=
    { copy := copy5.getD true, share := share5.getD false, forward := forward6.getD false,
      pfx := pfx3.getD true, render_local := rl6.getD true, render_job := rj5.getD false }
  -- residual diagnostics (base.py:1061-1091), in emission order
  let ws :=
    (if !f.copy && f.pfx then ["postfix-without-copy"] else []) ++
    (if !f.copy && f.share then ["share-without-copy"] else []) ++
    (if f.copy && f.forward then ["forward-with-copy"] else []) ++
    (if !f.copy && f.render_local then ["render-local-without-copy"] else []) ++
    (if f.share && f.render_local then ["share-with-render-local"] else []) ++
    (if f.render_local && f.render_job then ["render-local-and-render-job"] else [])
  (f, ws)

/-! ## Helper lemmas -/

/-- Flattening the chunk partition recovers the original list (fuel form). -/
theorem chunksFuel_flatten {α : Type} (cs : Nat) (hcs : 0 < cs) :
    ∀ (fuel : Nat) (l : List α), l.length ≤ fuel → (chunksFuel fuel cs l).flatten = l := by
  intro fuel
  induction fuel with
  | zero =>
    intro l hl
    have hnil : l = [] := List.length_eq_zero.mp (Nat.le_zero.mp hl)
    subst hnil
    rfl
  | succ n ih =>
    intro l hl
    cases l with
    | nil => rfl
    | cons x xs =>
      have hstep : chunksFuel (n + 1) cs (x :: xs) =
          (x :: xs).take cs :: chunksFuel n cs ((x :: xs).drop cs) := rfl
      rw [hstep, List.flatten_cons, ih]
      · exact List.take_append_drop cs (x :: xs)
      · rw [List.length_drop]
        have hxl : (x :: xs).length ≤ n + 1 := hl
        omega

/-- Flattening the chunk partition recovers the original list. -/
theorem chunks_flatten {α : Type} {cs : Nat} (hcs : 0 < cs) (l : List α) :
    (chunks cs l).flatten = l :=
  chunksFuel_flatten cs hcs l.length l le_rfl

/-- Chunkwise mapping equals mapping the flattened list. -/
theorem flatMap_map_eq {α β : Type} (h : α → β) :
    ∀ L : List (List α), (L.flatMap fun c => c.map h) = L.flatten.map h := by
  intro L
  induction L with
  | nil => rfl
  | cons c L ih => simp only [List.flatMap_cons, List.flatten_cons, List.map_append, ih]

/-- Chunkwise filterMap equals filterMap of the flattened list. -/
theorem flatMap_filterMap_eq {α β : Type} (g : α → Option β) :
    ∀ L : List (List α), (L.flatMap fun c => c.filterMap g) = L.flatten.filterMap g := by
  intro L
  induction L with
  | nil => rfl
  | cons c L ih => simp only [List.flatMap_cons, List.flatten_cons, List.filterMap_append, ih]

/-- flatMap of option-singletons equals filterMap. -/
theorem flatMap_optToList_eq {α β : Type} (g : α → Option β) :
    ∀ l : List α, (l.flatMap fun a => (g a).toList) = l.filterMap g := by
  intro l
  induction l with
  | nil => rfl
  | cons a l ih =>
    simp only [List.flatMap_cons, ih]
    cases h : g a with
    | none => simp [List.filterMap_cons, h]
    | some b => simp [List.filterMap_cons, h]

/-- Association lookup skips a prefix that does not carry the key. -/
theorem lookup_append_of_not_mem {α β : Type} [DecidableEq α] (j : α)
    (xs ys : List (α × β)) (h : ∀ p ∈ xs, p.1 ≠ j) :
    (xs ++ ys).lookup j = ys.lookup j := by
  induction xs with
  | nil => rfl
  | cons p xs ih =>
    have hne : (j == p.1) = false :=
      beq_eq_false_iff_ne.mpr fun hj => (h p (List.mem_cons_self p xs)) hj.symm
    cases p with
    | mk k v =>
      simp only [List.cons_append, List.lookup_cons]
      rw [hne]
      exact ih fun q hq => h q (List.mem_cons_of_mem _ hq)

/-- Association lookup succeeds within a prefix that resolves the key. -/
theorem lookup_append_of_some {α β : Type} [DecidableEq α] (j : α)
    (xs ys : List (α × β)) (v : β) (h : xs.lookup j = some v) :
    (xs ++ ys).lookup j = some v := by
  induction xs with
  | nil => cases h
  | cons p xs ih =>
    cases p with
    | mk k v2 =>
      simp only [List.cons_append, List.lookup_cons]
      simp only [List.lookup_cons] at h
      cases hjk : (j == k) with
      | true => rw [hjk] at h; exact h
      | false => rw [hjk] at h; exact ih h

/-- Looking up a member of a constant-valued association. -/
theorem lookup_map_const_mem {α β : Type} [DecidableEq α] (j : α) (v : β) :
    ∀ c : List α, j ∈ c → (c.map fun x => (x, v)).lookup j = some v := by
  intro c
  induction c with
  | nil => intro h; cases h
  | cons x xs ih =>
    intro hmem
    simp only [List.map_cons, List.lookup_cons]
    cases hjx : (j == x) with
    | true => rfl
    | false =>
      have hne : j ≠ x := beq_eq_false_iff_ne.mp hjx
      cases List.mem_cons.mp hmem with
      | inl h => exact absurd h hne
      | inr h => exact ih h

/-! ## Claim C3 -/

/-- Claim C3 (code bug): on a freshly constructed manager with the default five
status names, `status_line([2,0,0,0,0], last_counts=None, timestamp=False)`
does not return the documented line — the source never initialises `diffs`
when `last_counts` is falsy yet reads it inside the status loop (base.py:496),
so the call raises `UnboundLocalError`, leaving the stored baseline unchanged.
This contradicts the claim and the method's own docstring example
(base.py:453-454). -/
theorem C3_code_bug :
    status_line default_status_names (List.replicate 5 0) [2, 0, 0, 0, 0] LastArg.noneArg
      Option.none false [] (PyAlign.ofBool false) =
      (Except.error PyErr.unboundLocalDiffs, List.replicate 5 0) := rfl

/-! ## Claim C8 -/

/-- Claim C8 (confirmed): `JobInputFile(copy=False)` resolves to
`share=False, postfix=False, render_local=False` (with no diagnostics), and
`JobInputFile(copy=False, postfix=True)` completes without raising — the
constructor has no raise path — storing `copy=False, postfix=True` and
emitting exactly the postfix-has-no-effect diagnostic. -/
theorem C8_flags :
    jobInputFile_init (some false) Option.none Option.none Option.none Option.none Option.none
        Option.none =
      ({ copy := false, share := false, forward := false, pfx := false, render_local := false,
         render_job := false }, [])
    ∧ jobInputFile_init (some false) Option.none Option.none (some true) Option.none Option.none
        Option.none =
      ({ copy := false, share := false, forward := false, pfx := true, render_local := false,
         render_job := false }, ["postfix-without-copy"]) :=
  ⟨rfl, rfl⟩

/-! ## Claim C6 -/

/-- Claim C6 (counterexample): a missing source file raises `IOError` even
with `silent=True` (base.py:755-756 raises before `silent` is consulted),
contradicting the claim that a silent call returns without raising. -/
theorem C6_counterexample :
    render_file (fun p => p) FileRead.absent [] Option.none true = .error .ioError
    ∧ render_file (fun p => p) FileRead.absent [] Option.none true ≠ .ok Option.none := by
  refine ⟨rfl, ?_⟩
  intro h
  cases h

/-- Claim C6 (amended): a missing source file raises `IOError` regardless of
`silent`; a source that cannot be decoded as text returns without creating the
destination file when `silent` is true, and raises when `silent` is false. -/
theorem C6_amended (hashFull : List Char → List Char) (vars : List (List Char × List Char))
    (pfxOpt : Option (List Char)) (silent : Bool) :
    render_file hashFull FileRead.absent vars pfxOpt silent = .error .ioError
    ∧ render_file hashFull FileRead.undecodable vars pfxOpt true = .ok Option.none
    ∧ render_file hashFull FileRead.undecodable vars pfxOpt false = .error .unicodeDecodeError :=
  ⟨rfl, rfl, rfl⟩

/-! ## Claim C9 -/

/-- The digit list of a positive number is non-empty. -/
theorem natDigitsF_ne_nil (fuel n : Nat) (hn : n ≠ 0) : natDigitsF (fuel + 1) n ≠ [] := by
  cases n with
  | zero => exact absurd rfl hn
  | succ m =>
    have hstep : natDigitsF (fuel + 1) (m + 1) =
        natDigitsF fuel ((m + 1) / 10) ++ [Char.ofNat (48 + (m + 1) % 10)] := rfl
    rw [hstep]
    exact List.append_ne_nil_of_right_ne_nil _ (by simp)

/-- Python decimal rendering of a number is never the empty string. -/
theorem natStr_length_pos (n : Nat) : 0 < (natStr n).length := by
  unfold natStr
  by_cases hn : n = 0
  · rw [if_pos hn]
    decide
  · rw [if_neg hn]
    cases n with
    | zero => exact absurd rfl hn
    | succ m =>
      have h1 : natDigitsF (m + 1) (m + 1) ≠ [] := natDigitsF_ne_nil m (m + 1) (by simp)
      have h2 : (String.mk (natDigitsF (m + 1) (m + 1))).length =
          (natDigitsF (m + 1) (m + 1)).length := rfl
      rw [h2]
      exact List.length_pos.mpr h1

/-- A space-join starting with a token is at least as long as that token. -/
theorem joinSpace_cons_length (s : String) (r : List String) :
    s.length ≤ (joinSpace (s :: r)).length := by
  cases r with
  | nil => exact le_rfl
  | cons t r =>
    have hstep : joinSpace (s :: t :: r) = s ++ " " ++ joinSpace (t :: r) := rfl
    rw [hstep, String.length_append, String.length_append]
    omega

/-- The space-join of stringified branch numbers is empty exactly for the
empty branch list. -/
theorem joinSpace_natStr_eq_empty_iff (l : List Nat) :
    (joinSpace (l.map natStr) = "" ↔ l = []) := by
  constructor
  · intro h
    cases l with
    | nil => rfl
    | cons x xs =>
      exfalso
      have h1 : (natStr x).length ≤ (joinSpace (natStr x :: xs.map natStr)).length :=
        joinSpace_cons_length _ _
      have h2 : joinSpace ((x :: xs).map natStr) = joinSpace (natStr x :: xs.map natStr) := rfl
      rw [h2] at h
      rw [h] at h1
      have h3 : 0 < (natStr x).length := natStr_length_pos x
      have h4 : ("" : String).length = 0 := rfl
      omega
  · intro h
    subst h
    rfl

/-- Claim C9 (confirmed): `get_args` is exactly the ordered six-token list
`[module, name, encode(params), encode(branches), encode_bool(auto_retry),
encode(dashboard_data)]`, where booleans encode to the literal `"yes"`/`"no"`,
the branch list encodes to its space-joined elements (the `"-"` sentinel for
the empty list) base64-encoded, the params string encodes to its base64
encoding with the empty string first mapped to `"-"`, and `join` is the six
tokens joined with single spaces.  The final conjunct pins the base64 model on
a concrete value (`base64.b64encode(b"-") = b"LQ=="`). -/
theorem C9_encoding (ja : JobArguments) :
    ja.get_args = [ja.task_module, ja.task_name, encode_string ja.task_params,
      encode_list (ja.branches.map natStr), encode_bool ja.auto_retry,
      encode_list ja.dashboard_data]
    ∧ encode_bool ja.auto_retry = (if ja.auto_retry then "yes" else "no")
    ∧ encode_string ja.task_params = b64e (if ja.task_params = "" then "-" else ja.task_params)
    ∧ encode_list (ja.branches.map natStr) =
        b64e (if ja.branches = [] then "-" else joinSpace (ja.branches.map natStr))
    ∧ encode_list ja.dashboard_data =
        b64e (if joinSpace ja.dashboard_data = "" then "-" else joinSpace ja.dashboard_data)
    ∧ ja.join = joinSpace ja.get_args
    ∧ ja.get_args.length = 6
    ∧ encode_string "" = "LQ==" := by
  refine ⟨rfl, rfl, rfl, ?_, rfl, rfl, rfl, rfl⟩
  unfold encode_list
  by_cases hb : ja.branches = []
  · rw [hb]
    rfl
  · have h1 : joinSpace (ja.branches.map natStr) = "" ↔ ja.branches = [] :=
      joinSpace_natStr_eq_empty_iff ja.branches
    rw [if_neg (fun hh => hb (h1.mp hh)), if_neg hb]

/-! ## Claim C5 -/

/-- With the cyclic mapping a ↦ \x7b\x7bb\x7d\x7d, b ↦ \x7b\x7ba\x7d\x7d, the
resolution loop alternates between the two token values and never reaches its
break, for any number of iterations. -/
theorem cycle_loop_never_breaks :
    ∀ fuel : Nat,
      linearizeValueFuel [(['a'], renderPat ['b']), (['b'], renderPat ['a'])] fuel
        (renderPat ['a']) = Option.none
      ∧ linearizeValueFuel [(['a'], renderPat ['b']), (['b'], renderPat ['a'])] fuel
        (renderPat ['b']) = Option.none := by
  intro fuel
  induction fuel with
  | zero => exact ⟨rfl, rfl⟩
  | succ n ih =>
    constructor
    · have hstep : linearizeValueFuel [(['a'], renderPat ['b']), (['b'], renderPat ['a'])]
          (n + 1) (renderPat ['a']) =
          linearizeValueFuel [(['a'], renderPat ['b']), (['b'], renderPat ['a'])] n
            (renderPat ['b']) := rfl
      rw [hstep]
      exact ih.2
    · have hstep : linearizeValueFuel [(['a'], renderPat ['b']), (['b'], renderPat ['a'])]
          (n + 1) (renderPat ['b']) =
          linearizeValueFuel [(['a'], renderPat ['b']), (['b'], renderPat ['a'])] n
            (renderPat ['a']) := rfl
      rw [hstep]
      exact ih.1

/-- Claim C5 (counterexample): on the genuine reference cycle
`a ↦ \x7b\x7bb\x7d\x7d`, `b ↦ \x7b\x7ba\x7d\x7d`, the `while True` resolution
loop of `linearize_render_variables` (base.py:721-726) never terminates on the
value of key `a`: no iteration bound makes it reach its `break`.  This refutes
the claim that the function terminates on every input mapping. -/
theorem C5_counterexample :
    ¬ ∃ (fuel : Nat) (r : List Char),
        linearizeValueFuel [(['a'], renderPat ['b']), (['b'], renderPat ['a'])] fuel
          (renderPat ['b']) = some r := by
  intro h
  obtain ⟨fuel, r, hr⟩ := h
  rw [(cycle_loop_never_breaks fuel).2] at hr
  cases hr

/-- Claim C5 (amended): the resolution loop terminates on acyclic references —
on the docstring example it resolves the value of `variable_b` to
`"Hello, Tom!"` within two iterations — but on a genuine reference cycle
(`a` referring to `b` and `b` referring to `a`) it runs forever. -/
theorem C5_amended :
    linearizeValueFuel
        [("variable_a".toList, "Tom".toList),
         ("variable_b".toList, "Hello, ".toList ++ renderPat ("variable_a".toList) ++ ['!'])]
        2 ("Hello, ".toList ++ renderPat ("variable_a".toList) ++ ['!']) =
      some ("Hello, Tom!".toList)
    ∧ ¬ ∃ (fuel : Nat) (r : List Char),
        linearizeValueFuel [(['a'], renderPat ['b']), (['b'], renderPat ['a'])] fuel
          (renderPat ['b']) = some r := by
  constructor
  · rfl
  · intro h
    obtain ⟨fuel, r, hr⟩ := h
    rw [(cycle_loop_never_breaks fuel).2] at hr
    cases hr

/-! ## Claim C1 (counterexample) -/

/-- Claim C1 (counterexample): `cleanup_batch` on one job id whose atomic
cleanup succeeds (returns a falsy result) produces the empty error list, not a
length-1 list — the cancel/cleanup batch outputs are filtered error lists, so
their length does not match the input length. -/
theorem C1_counterexample :
    cleanup_batch 0 Option.none
        (fun _ : List Nat => (Except.ok [] : Except Nat (List (Option Nat))))
        (fun _ => Except.ok Option.none) [5] = []
    ∧ ([] : List Nat).length ≠ [5].length := by
  refine ⟨rfl, ?_⟩
  decide

/-! ## Claim C2 (counterexample) -/

/-- Claim C2 (counterexample): a chunked `cancel_batch` whose single chunk of
two job ids raises exception `7` returns `[7]` — one error entry for the whole
chunk (base.py:314 flattens the scalar exception once) — not the one entry per
item (`[7, 7]`) the claim requires. -/
theorem C2_counterexample :
    cancel_batch 2 Option.none
        (fun _ : List Nat => (Except.error 7 : Except Nat (List (Option Nat))))
        (fun _ => Except.ok Option.none) [10, 20] = [7]
    ∧ cancel_batch 2 Option.none
        (fun _ : List Nat => (Except.error 7 : Except Nat (List (Option Nat))))
        (fun _ => Except.ok Option.none) [10, 20] ≠ [7, 7] := by
  refine ⟨rfl, ?_⟩
  intro h
  have h2 : ([7] : List Nat) = [7, 7] := h
  cases h2

/-! ## Claim C4 -/

/-- Claim C4 (counterexample): with the configured default chunk size `0`
(chunking disabled, the class default for all four operations) and an explicit
positive `chunk_size=5`, `submit_batch` still dispatches per item — the
per-item atomic operation is used and the chunked one (which would return an
error here) is never called — because base.py:216-219 ignores the explicit
argument whenever the configured default is falsy. -/
theorem C4_counterexample :
    submit_batch 0 (some 5)
        (fun _ : List Nat => (Except.error 9 : Except Nat (List Nat)))
        (fun j => Except.ok j) [1, 2] = [Except.ok 1, Except.ok 2]
    ∧ effective_chunk_size 0 (some 5) = 0 :=
  ⟨rfl, rfl⟩

/-- Claim C4 (amended): for every batch operation, when the operation's
configured default chunk size is nonzero the chunk size used is the caller's
explicit argument if supplied and nonzero (a negative argument is clamped to
0, disabling chunking; an explicit 0 falls back to the default), else the
configured default; when the configured default is 0, chunking is disabled
regardless of any explicit argument; a resulting chunk size of 0 dispatches
each item as its own unit of work (the per-item atomic call), and a positive
one dispatches whole chunks. -/
theorem C4_amended {α E β : Type} (d : Nat) (a : Option Int)
    (opSC : List α → Except E (List β)) (opS1 : α → Except E β)
    (opCC opLC : List α → Except E (List (Option E))) (opC1 opL1 : α → Except E (Option E))
    (opQC : List α → Except E (List (α × β))) (opQ1 : α → Except E β)
    (js : List α) :
    effective_chunk_size 0 a = 0
    ∧ (d ≠ 0 → effective_chunk_size d Option.none = d)
    ∧ (d ≠ 0 → effective_chunk_size d (some 0) = d)
    ∧ (d ≠ 0 → ∀ n : Int, 0 < n → effective_chunk_size d (some n) = n.toNat)
    ∧ (d ≠ 0 → ∀ n : Int, n < 0 → effective_chunk_size d (some n) = 0)
    ∧ (effective_chunk_size d a = 0 →
        submit_batch d a opSC opS1 js = js.map opS1
        ∧ cancel_batch d a opCC opC1 js =
            js.flatMap (fun j =>
              match opC1 j with
              | .error e => [e]
              | .ok (some err) => [err]
              | .ok Option.none => [])
        ∧ cleanup_batch d a opLC opL1 js =
            js.flatMap (fun j =>
              match opL1 j with
              | .error e => [e]
              | .ok (some err) => [err]
              | .ok Option.none => [])
        ∧ query_batch d a opQC opQ1 js = js.map (fun j => (j, opQ1 j)))
    ∧ (0 < effective_chunk_size d a →
        submit_batch d a opSC opS1 js =
          (chunks (effective_chunk_size d a) js).flatMap (submit_chunk_res opSC)
        ∧ cancel_batch d a opCC opC1 js =
          (chunks (effective_chunk_size d a) js).flatMap (cancel_chunk_res opCC)
        ∧ cleanup_batch d a opLC opL1 js =
          (chunks (effective_chunk_size d a) js).flatMap (cleanup_chunk_res opLC)
        ∧ query_batch d a opQC opQ1 js =
          (chunks (effective_chunk_size d a) js).flatMap (query_chunk_res opQC)) := by
  refine ⟨?_, ?_, ?_, ?_, ?_, ?_, ?_⟩
  · simp [effective_chunk_size]
  · intro hd
    simp [effective_chunk_size, pyOrInt, hd]
  · intro hd
    simp [effective_chunk_size, pyOrInt, hd]
  · intro hd n hn
    rw [effective_chunk_size, if_neg hd]
    have h1 : pyOrInt (some n) (d : Int) = n := by
      simp [pyOrInt]
      omega
    rw [h1, max_eq_left hn.le]
  · intro hd n hn
    rw [effective_chunk_size, if_neg hd]
    have h1 : pyOrInt (some n) (d : Int) = n := by
      simp [pyOrInt]
      omega
    rw [h1, max_eq_right hn.le]
    rfl
  · intro h0
    have hneg : ¬ 0 < effective_chunk_size d a := by omega
    exact ⟨by rw [submit_batch, if_neg hneg], by rw [cancel_batch, if_neg hneg],
      by rw [cleanup_batch, if_neg hneg], by rw [query_batch, if_neg hneg]⟩
  · intro h0
    exact ⟨by rw [submit_batch, if_pos h0], by rw [cancel_batch, if_pos h0],
      by rw [cleanup_batch, if_pos h0], by rw [query_batch, if_pos h0]⟩

/-- Witness for `C4_amended` at concrete inputs: default 3 with explicit 5
uses 5; default 0 with explicit 5 disables chunking; default 3 with no
argument uses 3; a negative explicit argument under a nonzero default disables
chunking and the per-item dispatch is used. -/
theorem C4_amended_witness :
    effective_chunk_size 3 (some 5) = 5
    ∧ effective_chunk_size 0 (some 5) = 0
    ∧ effective_chunk_size 3 Option.none = 3
    ∧ submit_batch 3 (some (-1))
        (fun c : List Nat => (Except.ok (c.map (fun j => j + 1)) : Except Nat (List Nat)))
        (fun j => Except.ok (j + 1)) [1, 2] =
        [1, 2].map (fun j => (Except.ok (j + 1) : Except Nat Nat)) := by
  refine ⟨?_, ?_, ?_, ?_⟩
  · exact (C4_amended 3 (some 5)
      (fun c : List Nat => (Except.ok (c.map (fun j => j + 1)) : Except Nat (List Nat)))
      (fun j => Except.ok (j + 1)) (fun _ => Except.ok []) (fun _ => Except.ok [])
      (fun _ => Except.ok Option.none) (fun _ => Except.ok Option.none)
      (fun _ => Except.ok []) (fun j => Except.ok (j + 1))
      ([] : List Nat)).2.2.2.1 (by decide) 5 (by decide)
  · exact (C4_amended 0 (some 5)
      (fun c : List Nat => (Except.ok (c.map (fun j => j + 1)) : Except Nat (List Nat)))
      (fun j => Except.ok (j + 1)) (fun _ => Except.ok []) (fun _ => Except.ok [])
      (fun _ => Except.ok Option.none) (fun _ => Except.ok Option.none)
      (fun _ => Except.ok []) (fun j => Except.ok (j + 1))
      ([] : List Nat)).1
  · exact (C4_amended 3 Option.none
      (fun c : List Nat => (Except.ok (c.map (fun j => j + 1)) : Except Nat (List Nat)))
      (fun j => Except.ok (j + 1)) (fun _ => Except.ok []) (fun _ => Except.ok [])
      (fun _ => Except.ok Option.none) (fun _ => Except.ok Option.none)
      (fun _ => Except.ok []) (fun j => Except.ok (j + 1))
      ([] : List Nat)).2.1 (by decide)
  · exact ((C4_amended 3 (some (-1))
      (fun c : List Nat => (Except.ok (c.map (fun j => j + 1)) : Except Nat (List Nat)))
      (fun j => Except.ok (j + 1)) (fun _ => Except.ok []) (fun _ => Except.ok [])
      (fun _ => Except.ok Option.none) (fun _ => Except.ok Option.none)
      (fun _ => Except.ok []) (fun j => Except.ok (j + 1))
      [1, 2]).2.2.2.2.2.1 (by decide)).1

/-! ## Claim C10 -/

/-- Under a length mismatch, `status_line_core` raises. -/
theorem status_line_core_mismatch_errors (names : List (List Char)) (stored counts : List Int)
    (lastArg : LastArg) (sumArg : Option Int) (ts : Bool) (now : List Char) (al : PyAlign)
    (h : counts.length ≠ names.length ∨
      ∃ l, lastArg = LastArg.explicitArg l ∧ l.length ≠ names.length) :
    ∃ e, status_line_core names stored counts lastArg sumArg ts now al = .error e := by
  by_cases h1 : resolveLast stored names.length lastArg ≠ [] ∧
      (resolveLast stored names.length lastArg).length ≠ names.length
  · exact ⟨.lengthLast, by rw [status_line_core, if_pos h1]⟩
  · by_cases h2 : counts.length ≠ names.length
    · exact ⟨.lengthCounts, by rw [status_line_core, if_neg h1, if_pos h2]⟩
    · -- counts has the right length, so the hypothesis gives an explicit
      -- mismatched previous-counts list, which the negated first check forces
      -- to be empty; the loop is then non-empty and reads the unassigned diffs
      obtain ⟨l, hl, hlen⟩ := h.resolve_left (fun hc => h2 hc)
      have hlc : resolveLast stored names.length lastArg = l := by
        rw [hl]
        rfl
      have hlnil : l = [] := by
        by_contra hne
        exact h1 ⟨by rw [hlc]; exact hne, by rw [hlc]; exact hlen⟩
      have hnames : names ≠ [] := by
        intro hn
        rw [hn] at hlen
        rw [hlnil] at hlen
        exact hlen rfl
      have hcounts : counts ≠ [] := by
        intro hc
        rw [hc] at h2
        push_neg at h2
        exact hnames (List.length_eq_zero.mp h2.symm)
      have h3 : names.zip counts ≠ [] ∧
          statusDiffs counts (resolveLast stored names.length lastArg) = Option.none := by
        constructor
        · intro hz
          cases List.zip_eq_nil_iff.mp hz with
          | inl hn => exact hnames hn
          | inr hc => exact hcounts hc
        · rw [hlc, hlnil]
          rfl
      exact ⟨.unboundLocalDiffs, by rw [status_line_core, if_neg h1, if_neg h2, if_pos h3]⟩

/-- Claim C10 (confirmed): whenever the reported counts — or an explicitly
supplied previous-counts list — have a length different from the status names,
`status_line` raises and the stored `last_counts` baseline is left unchanged;
the baseline is overwritten only by a call that returns a formatted line
(base.py:505 is the sole mutation and follows every raise site). -/
theorem C10_atomic (names : List (List Char)) (stored counts : List Int)
    (lastArg : LastArg) (sumArg : Option Int) (ts : Bool) (now : List Char) (al : PyAlign)
    (h : counts.length ≠ names.length ∨
      ∃ l, lastArg = LastArg.explicitArg l ∧ l.length ≠ names.length) :
    exceptIsError (status_line names stored counts lastArg sumArg ts now al).1 = true
    ∧ (status_line names stored counts lastArg sumArg ts now al).2 = stored := by
  obtain ⟨e, he⟩ :=
    status_line_core_mismatch_errors names stored counts lastArg sumArg ts now al h
  rw [status_line, he]
  exact ⟨rfl, rfl⟩

/-- Witness for `C10_atomic`: a counts vector of length 2 against the five
default status names raises and keeps the stored baseline. -/
theorem C10_atomic_witness :
    exceptIsError (status_line default_status_names [0, 0, 0, 0, 0] [1, 2] LastArg.noneArg
      Option.none false [] (PyAlign.ofBool false)).1 = true
    ∧ (status_line default_status_names [0, 0, 0, 0, 0] [1, 2] LastArg.noneArg
      Option.none false [] (PyAlign.ofBool false)).2 = [0, 0, 0, 0, 0] :=
  C10_atomic default_status_names [0, 0, 0, 0, 0] [1, 2] LastArg.noneArg Option.none false []
    (PyAlign.ofBool false) (Or.inl (by decide))

/-! ## Claim C7 -/

/-- Claim C7 (counterexample): with a non-empty postfix `_1`, a render value
containing the claim's marker `__job_postfix__:a.txt` is substituted into the
content completely unchanged — the source's marker regex (base.py:772) only
matches `__law_job_postfix__:`, so no postfixing happens — whereas the claim
requires the marker to be replaced by `postfix_input_file("a.txt", "_1")`. -/
theorem C7_counterexample :
    render_file (fun _ => "H".toList) (FileRead.text (renderPat ("x".toList)))
        [("x".toList, "__job_postfix__:a.txt".toList)] (some ("_1".toList)) true =
      .ok (some ("__job_postfix__:a.txt".toList))
    ∧ "__job_postfix__:a.txt".toList ≠
        postfix_input_file (fun _ => "H".toList) ("a.txt".toList) (some ("_1".toList)) := by
  refine ⟨rfl, ?_⟩
  decide

/-- The marker substitution leaves the empty text empty, for any fuel. -/
theorem subMarkersF_nil (repl : List Char → List Char) :
    ∀ fuel : Nat, subMarkersF repl fuel [] = [] := by
  intro fuel
  cases fuel with
  | zero => rfl
  | succ n => rfl

/-- No marker match can start at a character other than an underscore. -/
theorem tryMarker_head_ne (c : Char) (cs : List Char) (h : c ≠ '_') :
    tryMarker (c :: cs) = Option.none := by
  rw [tryMarker, if_neg]
  intro heq
  have h4 : markerLit.head? = some '_' := rfl
  have h5 : ((c :: cs).take markerLit.length).head? = some c := rfl
  rw [heq, h5] at h4
  injection h4 with h6
  exact h h6

/-- The marker substitution copies an underscore-free prefix verbatim. -/
theorem subMarkersF_clean_lead (repl : List Char → List Char) :
    ∀ (pre rest : List Char), (∀ c ∈ pre, c ≠ '_') →
      ∀ fuel : Nat, subMarkersF repl (pre.length + fuel) (pre ++ rest) =
        pre ++ subMarkersF repl fuel rest := by
  intro pre
  induction pre with
  | nil =>
    intro rest hpre fuel
    simp
  | cons c pre ih =>
    intro rest hpre fuel
    have hc : c ≠ '_' := hpre c (List.mem_cons_self c pre)
    have hnone : tryMarker (c :: (pre ++ rest)) = Option.none :=
      tryMarker_head_ne c (pre ++ rest) hc
    have harith : (c :: pre).length + fuel = (pre.length + fuel) + 1 := by
      simp [List.length_cons]
      omega
    rw [harith]
    have hstep : subMarkersF repl ((pre.length + fuel) + 1) (c :: (pre ++ rest)) =
        c :: subMarkersF repl (pre.length + fuel) (pre ++ rest) := by
      simp only [subMarkersF, hnone]
    have hshape : (c :: pre) ++ rest = c :: (pre ++ rest) := rfl
    rw [hshape, hstep, ih rest (fun x hx => hpre x (List.mem_cons_of_mem c hx)) fuel]
    rfl

/-- At the marker itself, with a non-empty whitespace-free remainder, the
match captures exactly that remainder. -/
theorem tryMarker_at_marker (path : List Char) (hne : path ≠ [])
    (hns : ∀ c ∈ path, c.isWhitespace = false) :
    tryMarker (markerLit ++ path) = some (path, []) := by
  rw [tryMarker]
  rw [if_pos]
  · have hdrop : (markerLit ++ path).drop markerLit.length = path := List.drop_left _ _
    have htw : path.takeWhile (fun c => !c.isWhitespace) = path :=
      List.takeWhile_eq_self_iff.mpr (by
        intro x hx
        simp [hns x hx])
    simp only [hdrop]
    simp only [htw]
    rw [if_neg hne, List.drop_length]
  · rw [List.take_left]

/-- Claim C7 (amended): in `render_file` with a non-empty postfix, a
render-variable value containing a marker token of the source's actual form
`__law_job_postfix__:<path>` has the marker replaced by
`postfix_input_file(<path>, postfix)` before substitution (first conjunct:
the preprocessing of a value `echo __law_job_postfix__:<path>` for any
whitespace-free non-empty path, any postfix, any path hash); the second
conjunct checks the docstring scenario end to end through `render_file`. -/
theorem C7_amended (hashFull : List Char → List Char) (pfx : List Char) (hp : pfx ≠ [])
    (path : List Char) (hne : path ≠ []) (hns : ∀ c ∈ path, c.isWhitespace = false) :
    render_value hashFull (some pfx) ("echo ".toList ++ (markerLit ++ path)) =
      "echo ".toList ++ postfix_input_file hashFull path (some pfx)
    ∧ render_file (fun _ => "H".toList)
        (FileRead.text (renderPat ("my_command".toList)))
        [("my_command".toList, "echo __law_job_postfix__:some/path.txt".toList)]
        (some ("_1".toList)) true =
      .ok (some ("echo some/path_H_1.txt".toList)) := by
  constructor
  · have htruthy : pfxTruthy (some pfx) = true := by
      cases pfx with
      | nil => exact absurd rfl hp
      | cons a as => rfl
    rw [render_value, if_pos htruthy]
    rw [subMarkers]
    have hlen : ("echo ".toList ++ (markerLit ++ path)).length =
        ("echo ".toList).length + (markerLit ++ path).length := List.length_append _ _
    rw [hlen]
    rw [subMarkersF_clean_lead _ ("echo ".toList) (markerLit ++ path) (by decide) _]
    have hcons : markerLit ++ path = '_' :: ("_law_job_postfix__:".toList ++ path) := rfl
    have hlen2 : (markerLit ++ path).length = (19 + path.length) + 1 := by
      rw [List.length_append]
      have hm : markerLit.length = 20 := rfl
      omega
    rw [hlen2, hcons]
    have hstep : subMarkersF (fun p => postfix_input_file hashFull p (some pfx))
        ((19 + path.length) + 1) ('_' :: ("_law_job_postfix__:".toList ++ path)) =
        match tryMarker ('_' :: ("_law_job_postfix__:".toList ++ path)) with
        | some (p, rest) =>
          postfix_input_file hashFull p (some pfx) ++
            subMarkersF (fun p => postfix_input_file hashFull p (some pfx))
              (19 + path.length) rest
        | Option.none =>
          '_' :: subMarkersF (fun p => postfix_input_file hashFull p (some pfx))
            (19 + path.length) ("_law_job_postfix__:".toList ++ path) := rfl
    rw [hstep, ← hcons, tryMarker_at_marker path hne hns]
    show "echo ".toList ++
        (postfix_input_file hashFull path (some pfx) ++
          subMarkersF (fun p => postfix_input_file hashFull p (some pfx))
            (19 + path.length) []) =
      "echo ".toList ++ postfix_input_file hashFull path (some pfx)
    rw [subMarkersF_nil, List.append_nil]
  · rfl

/-- Witness for `C7_amended` at a concrete postfix, path and hash. -/
theorem C7_amended_witness :
    render_value (fun _ => "H".toList) (some ("_1".toList))
        ("echo ".toList ++ (markerLit ++ "a.txt".toList)) =
      "echo ".toList ++ postfix_input_file (fun _ => "H".toList) ("a.txt".toList)
        (some ("_1".toList)) :=
  (C7_amended (fun _ => "H".toList) ("_1".toList) (by decide) ("a.txt".toList) (by decide)
    (by decide)).1

/-! ## Claim C1 (amended) -/

/-- Claim C1 (amended): for every input list, every configured default chunk
size and every explicit chunk-size argument — hence every effective chunk size,
covering 0, 1, N and beyond — given atomic operations that return one result
per item (the chunked call returning the same-length, same-order list of the
per-item results), `submit_batch` returns exactly the per-item results in
input order (length N), `query_batch` associates each input job id with its
own per-item result, and `cancel_batch`/`cleanup_batch` return exactly the
per-item error entries in input order (so the empty list on total success, and
length N only when every item contributes an error entry) — all independent of
chunking. -/
theorem C1_amended {α E β γ : Type}
    (dS dQ dC dL : Nat) (aS aQ aC aL : Option Int) (js : List α)
    (opSC : List α → Except E (List β)) (opS1 : α → Except E β) (f : α → β)
    (opQC : List α → Except E (List (α × γ))) (opQ1 : α → Except E γ) (q : α → γ)
    (opCC : List α → Except E (List (Option E))) (opC1 : α → Except E (Option E))
    (g : α → Option E)
    (opLC : List α → Except E (List (Option E))) (opL1 : α → Except E (Option E))
    (g2 : α → Option E)
    (hSC : ∀ c, opSC c = .ok (c.map f)) (hS1 : ∀ j, opS1 j = .ok (f j))
    (hQC : ∀ c, opQC c = .ok (c.map fun j => (j, q j))) (hQ1 : ∀ j, opQ1 j = .ok (q j))
    (hCC : ∀ c, opCC c = .ok (c.map g)) (hC1 : ∀ j, opC1 j = .ok (g j))
    (hLC : ∀ c, opLC c = .ok (c.map g2)) (hL1 : ∀ j, opL1 j = .ok (g2 j)) :
    submit_batch dS aS opSC opS1 js = js.map (fun j => Except.ok (f j))
    ∧ query_batch dQ aQ opQC opQ1 js = js.map (fun j => (j, Except.ok (q j)))
    ∧ cancel_batch dC aC opCC opC1 js = js.filterMap g
    ∧ cleanup_batch dL aL opLC opL1 js = js.filterMap g2 := by
  refine ⟨?_, ?_, ?_, ?_⟩
  · rw [submit_batch]
    by_cases h : 0 < effective_chunk_size dS aS
    · rw [if_pos h]
      have hres : submit_chunk_res opSC = fun c => c.map (fun j => Except.ok (f j)) := by
        funext c
        rw [submit_chunk_res, hSC c]
        show (c.map f).map Except.ok = c.map (fun j => Except.ok (f j))
        rw [List.map_map]
        rfl
      rw [hres, flatMap_map_eq, chunks_flatten h]
    · rw [if_neg h]
      exact List.map_congr_left fun j _ => hS1 j
  · rw [query_batch]
    by_cases h : 0 < effective_chunk_size dQ aQ
    · rw [if_pos h]
      have hres : query_chunk_res opQC = fun c => c.map (fun j => (j, Except.ok (q j))) := by
        funext c
        rw [query_chunk_res, hQC c]
        show (c.map (fun j => (j, q j))).map (fun jb => (jb.1, Except.ok jb.2)) =
          c.map (fun j => (j, Except.ok (q j)))
        rw [List.map_map]
        rfl
      rw [hres, flatMap_map_eq, chunks_flatten h]
    · rw [if_neg h]
      exact List.map_congr_left fun j _ => by rw [hQ1 j]
  · rw [cancel_batch]
    by_cases h : 0 < effective_chunk_size dC aC
    · rw [if_pos h]
      have hres : cancel_chunk_res opCC = fun c => c.filterMap g := by
        funext c
        rw [cancel_chunk_res, hCC c]
        show (c.map g).filterMap id = c.filterMap g
        rw [List.filterMap_map]
        rfl
      rw [hres, flatMap_filterMap_eq, chunks_flatten h]
    · rw [if_neg h]
      have hfn : (fun j =>
          match opC1 j with
          | .error e => [e]
          | .ok (some err) => [err]
          | .ok Option.none => ([] : List E)) = fun j => (g j).toList := by
        funext j
        rw [hC1 j]
        cases g j with
        | none => rfl
        | some e => rfl
      rw [hfn, flatMap_optToList_eq]
  · rw [cleanup_batch]
    by_cases h : 0 < effective_chunk_size dL aL
    · rw [if_pos h]
      have hres : cleanup_chunk_res opLC = fun c => c.filterMap g2 := by
        funext c
        rw [cleanup_chunk_res, hLC c]
        show (c.map g2).filterMap id = c.filterMap g2
        rw [List.filterMap_map]
        rfl
      rw [hres, flatMap_filterMap_eq, chunks_flatten h]
    · rw [if_neg h]
      have hfn : (fun j =>
          match opL1 j with
          | .error e => [e]
          | .ok (some err) => [err]
          | .ok Option.none => ([] : List E)) = fun j => (g2 j).toList := by
        funext j
        rw [hL1 j]
        cases g2 j with
        | none => rfl
        | some e => rfl
      rw [hfn, flatMap_optToList_eq]

/-- Witness for `C1_amended` at a concrete input of length 3 with chunk size 2
(submit, query) and chunking disabled (cancel) resp. chunk size 5 greater than
the input length (cleanup): outputs are the per-item results in input order. -/
theorem C1_amended_witness :
    submit_batch 2 Option.none
        (fun c : List Nat => (Except.ok (c.map (fun j => j * 2)) : Except Nat (List Nat)))
        (fun j => Except.ok (j * 2)) [1, 2, 3] =
      [1, 2, 3].map (fun j => (Except.ok (j * 2) : Except Nat Nat))
    ∧ query_batch 2 Option.none
        (fun c : List Nat => (Except.ok (c.map fun j => (j, j + 7)) :
          Except Nat (List (Nat × Nat))))
        (fun j => Except.ok (j + 7)) [1, 2, 3] =
      [1, 2, 3].map (fun j => (j, (Except.ok (j + 7) : Except Nat Nat)))
    ∧ cancel_batch 0 Option.none
        (fun c : List Nat => (Except.ok (c.map fun j => if j = 2 then some 5 else Option.none) :
          Except Nat (List (Option Nat))))
        (fun j => Except.ok (if j = 2 then some 5 else Option.none)) [1, 2, 3] =
      [1, 2, 3].filterMap (fun j => if j = 2 then some 5 else Option.none)
    ∧ cleanup_batch 5 Option.none
        (fun c : List Nat => (Except.ok (c.map fun _ => (Option.none : Option Nat)) :
          Except Nat (List (Option Nat))))
        (fun _ => Except.ok Option.none) [1, 2, 3] =
      [1, 2, 3].filterMap (fun _ => (Option.none : Option Nat)) :=
  C1_amended 2 2 0 5 Option.none Option.none Option.none Option.none [1, 2, 3]
    (fun c => Except.ok (c.map (fun j => j * 2))) (fun j => Except.ok (j * 2))
    (fun j => j * 2)
    (fun c => Except.ok (c.map fun j => (j, j + 7))) (fun j => Except.ok (j + 7))
    (fun j => j + 7)
    (fun c => Except.ok (c.map fun j => if j = 2 then some 5 else Option.none))
    (fun j => Except.ok (if j = 2 then some 5 else Option.none))
    (fun j => if j = 2 then some 5 else Option.none)
    (fun c => Except.ok (c.map fun _ => Option.none)) (fun _ => Except.ok Option.none)
    (fun _ => Option.none)
    (fun _cS => rfl) (fun _jS => rfl) (fun _cQ => rfl) (fun _jQ => rfl)
    (fun _cC => rfl) (fun _jC => rfl) (fun _cL => rfl) (fun _jL => rfl)

/-! ## Claim C2 (amended) -/

/-- The keys of a chunk's query data are exactly the chunk, whether the chunk
raised (broadcast) or returned per-item data. -/
theorem query_chunk_res_keys {α E β : Type} (opC : List α → Except E (List (α × β)))
    (hkeys : ∀ c2 l, opC c2 = .ok l → l.map Prod.fst = c2) (c2 : List α) :
    (query_chunk_res opC c2).map Prod.fst = c2 := by
  cases h : opC c2 with
  | error e =>
    rw [query_chunk_res, h]
    show (c2.map (fun x => (x, Except.error e))).map Prod.fst = c2
    rw [List.map_map]
    exact List.map_id' c2
  | ok l =>
    rw [query_chunk_res, h]
    show (l.map (fun jb => (jb.1, Except.ok jb.2))).map Prod.fst = c2
    rw [List.map_map]
    have h3 : (Prod.fst ∘ fun jb : α × β => (jb.1, (Except.ok jb.2 : Except E β))) =
        Prod.fst := rfl
    rw [h3]
    exact hkeys c2 l h

/-- The keys of the concatenated query data of a chunk list are its flattened
items. -/
theorem flatMap_query_keys {α E β : Type} (opC : List α → Except E (List (α × β)))
    (hkeys : ∀ c2 l, opC c2 = .ok l → l.map Prod.fst = c2) :
    ∀ A : List (List α), (A.flatMap (query_chunk_res opC)).map Prod.fst = A.flatten := by
  intro A
  induction A with
  | nil => rfl
  | cons c2 A ih =>
    rw [List.flatMap_cons, List.map_append, ih, List.flatten_cons,
      query_chunk_res_keys opC hkeys c2]

/-- A chunk's submit output has one entry per chunk item when the atomic call
keeps the per-item contract on success (and broadcasts on failure). -/
theorem submit_chunk_res_length {α E β : Type} (opC : List α → Except E (List β))
    (hlen : ∀ c2 bs, opC c2 = .ok bs → bs.length = c2.length) (c2 : List α) :
    (submit_chunk_res opC c2).length = c2.length := by
  cases h : opC c2 with
  | error e =>
    rw [submit_chunk_res, h]
    show (c2.map (fun _ => (Except.error e : Except E β))).length = c2.length
    exact List.length_map c2 _
  | ok bs =>
    rw [submit_chunk_res, h]
    show (bs.map Except.ok).length = c2.length
    rw [List.length_map]
    exact hlen c2 bs h

/-- The concatenated submit output of a chunk list has one entry per item. -/
theorem flatMap_submit_length {α E β : Type} (opC : List α → Except E (List β))
    (hlen : ∀ c2 bs, opC c2 = .ok bs → bs.length = c2.length) :
    ∀ A : List (List α), (A.flatMap (submit_chunk_res opC)).length = A.flatten.length := by
  intro A
  induction A with
  | nil => rfl
  | cons c2 A ih =>
    rw [List.flatMap_cons, List.length_append, ih, List.flatten_cons, List.length_append,
      submit_chunk_res_length opC hlen c2]

/-- Claim C2 (amended): in a chunked batch call whose atomic operation raises
on an entire chunk, that single exception is broadcast as the result of every
item of that chunk in `submit_batch`'s output (a `replicate` of the chunk's
length, sitting after exactly one output entry per preceding item) and
`query_batch` maps every job id of the chunk to it; `cancel_batch` and
`cleanup_batch` record exactly ONE error entry for the whole raising chunk,
not one per item. -/
theorem C2_amended {α E β : Type} [DecidableEq α]
    (d : Nat) (a : Option Int) (js : List α) (A B : List (List α)) (c : List α)
    (opSC : List α → Except E (List β)) (opS1 : α → Except E β) (eS : E)
    (opQC : List α → Except E (List (α × β))) (opQ1 : α → Except E β) (eQ : E)
    (opCC : List α → Except E (List (Option E))) (opC1 : α → Except E (Option E)) (eC : E)
    (opLC : List α → Except E (List (Option E))) (opL1 : α → Except E (Option E)) (eL : E)
    (heff : 0 < effective_chunk_size d a)
    (hdec : chunks (effective_chunk_size d a) js = A ++ c :: B)
    (hS : opSC c = .error eS)
    (hlenS : ∀ c2 bs, opSC c2 = .ok bs → bs.length = c2.length)
    (hQ : opQC c = .error eQ)
    (hkeys : ∀ c2 l, opQC c2 = .ok l → l.map Prod.fst = c2)
    (hnd : js.Nodup)
    (hC : opCC c = .error eC)
    (hL : opLC c = .error eL) :
    submit_batch d a opSC opS1 js =
      A.flatMap (submit_chunk_res opSC) ++
        (List.replicate c.length (Except.error eS) ++ B.flatMap (submit_chunk_res opSC))
    ∧ (A.flatMap (submit_chunk_res opSC)).length = A.flatten.length
    ∧ (∀ j ∈ c, (query_batch d a opQC opQ1 js).lookup j = some (Except.error eQ))
    ∧ cancel_batch d a opCC opC1 js =
        A.flatMap (cancel_chunk_res opCC) ++ ([eC] ++ B.flatMap (cancel_chunk_res opCC))
    ∧ cleanup_batch d a opLC opL1 js =
        A.flatMap (cleanup_chunk_res opLC) ++ ([eL] ++ B.flatMap (cleanup_chunk_res opLC)) := by
  have hflat : js = A.flatten ++ (c ++ B.flatten) := by
    have h1 := chunks_flatten heff js
    rw [hdec, List.flatten_append, List.flatten_cons] at h1
    exact h1.symm
  refine ⟨?_, ?_, ?_, ?_, ?_⟩
  · rw [submit_batch, if_pos heff, hdec, List.flatMap_append, List.flatMap_cons]
    have hcres : submit_chunk_res opSC c = List.replicate c.length (Except.error eS) := by
      rw [submit_chunk_res, hS]
      show c.map (fun _ => (Except.error eS : Except E β)) =
        List.replicate c.length (Except.error eS)
      exact List.map_const' c _
    rw [hcres]
  · exact flatMap_submit_length opSC hlenS A
  · intro j hj
    rw [query_batch, if_pos heff, hdec, List.flatMap_append, List.flatMap_cons]
    have hqres : query_chunk_res opQC c = c.map (fun x => (x, Except.error eQ)) := by
      rw [query_chunk_res, hQ]
    rw [hqres]
    have hnotA : j ∉ A.flatten := by
      intro hjA
      have hnd2 : (A.flatten ++ (c ++ B.flatten)).Nodup := hflat ▸ hnd
      have hdisj := List.disjoint_of_nodup_append hnd2
      exact hdisj hjA (List.mem_append_left _ hj)
    have hkeysA : ∀ p ∈ A.flatMap (query_chunk_res opQC), p.1 ≠ j := by
      intro p hp hpj
      have h2 : p.1 ∈ (A.flatMap (query_chunk_res opQC)).map Prod.fst :=
        List.mem_map_of_mem _ hp
      rw [flatMap_query_keys opQC hkeys A, hpj] at h2
      exact hnotA h2
    rw [lookup_append_of_not_mem j _ _ hkeysA]
    exact lookup_append_of_some j _ _ _ (lookup_map_const_mem j _ c hj)
  · rw [cancel_batch, if_pos heff, hdec, List.flatMap_append, List.flatMap_cons]
    have hcres : cancel_chunk_res opCC c = [eC] := by
      rw [cancel_chunk_res, hC]
    rw [hcres]
  · rw [cleanup_batch, if_pos heff, hdec, List.flatMap_append, List.flatMap_cons]
    have hcres : cleanup_chunk_res opLC c = [eL] := by
      rw [cleanup_chunk_res, hL]
    rw [hcres]

/-- Witness for `C2_amended`: input `[1,2,3,4]` with chunk size 2; the second
chunk `[3,4]` raises in each operation; the broadcast resp. single-entry
recording is observed at concrete values. -/
theorem C2_amended_witness :
    submit_batch 2 Option.none (fun _ : List Nat => (Except.error 9 : Except Nat (List Nat)))
        (fun j => Except.ok j) [1, 2, 3, 4] =
      ([[1, 2]] : List (List Nat)).flatMap
          (submit_chunk_res (fun _ : List Nat => (Except.error 9 : Except Nat (List Nat)))) ++
        (List.replicate 2 (Except.error 9) ++
          ([] : List (List Nat)).flatMap
            (submit_chunk_res (fun _ : List Nat => (Except.error 9 : Except Nat (List Nat)))))
    ∧ (query_batch 2 Option.none
        (fun _ : List Nat => (Except.error 8 : Except Nat (List (Nat × Nat))))
        (fun j => Except.ok j) [1, 2, 3, 4]).lookup 3 = some (Except.error 8)
    ∧ cancel_batch 2 Option.none
        (fun _ : List Nat => (Except.error 11 : Except Nat (List (Option Nat))))
        (fun _ => Except.ok Option.none) [1, 2, 3, 4] =
      ([[1, 2]] : List (List Nat)).flatMap
          (cancel_chunk_res (fun _ : List Nat =>
            (Except.error 11 : Except Nat (List (Option Nat))))) ++
        ([11] ++ ([] : List (List Nat)).flatMap
          (cancel_chunk_res (fun _ : List Nat =>
            (Except.error 11 : Except Nat (List (Option Nat))))))
    ∧ cleanup_batch 2 Option.none
        (fun _ : List Nat => (Except.error 12 : Except Nat (List (Option Nat))))
        (fun _ => Except.ok Option.none) [1, 2, 3, 4] =
      ([[1, 2]] : List (List Nat)).flatMap
          (cleanup_chunk_res (fun _ : List Nat =>
            (Except.error 12 : Except Nat (List (Option Nat))))) ++
        ([12] ++ ([] : List (List Nat)).flatMap
          (cleanup_chunk_res (fun _ : List Nat =>
            (Except.error 12 : Except Nat (List (Option Nat)))))) := by
  have h := C2_amended 2 Option.none [1, 2, 3, 4] [[1, 2]] [] [3, 4]
    (fun _ : List Nat => (Except.error 9 : Except Nat (List Nat))) (fun j => Except.ok j) 9
    (fun _ : List Nat => (Except.error 8 : Except Nat (List (Nat × Nat))))
    (fun j => Except.ok j) 8
    (fun _ : List Nat => (Except.error 11 : Except Nat (List (Option Nat))))
    (fun _ => Except.ok Option.none) 11
    (fun _ : List Nat => (Except.error 12 : Except Nat (List (Option Nat))))
    (fun _ => Except.ok Option.none) 12
    (by decide) (by decide) rfl (fun c2 bs hh => nomatch hh) rfl
    (fun c2 l hh => nomatch hh) (by decide) rfl rfl
  exact ⟨h.1, h.2.2.1 3 (by decide), h.2.2.2.1, h.2.2.2.2⟩
